import Mathlib

/-!
Verification of the ip_updater change-detection-and-apply engine.

Each section embeds one part of the Go source as executable Lean
definitions and proves the properties claimed about it:

* `internal/updater/updater.go`: the retry layer and its error
  classification (`isNonRetryableError`, `containsIgnoreCase`,
  `containsSubstring`, `updateDNSWithRetry` / `updateFileWithRetry`).
* `pkg/dns/interface.go`: the sync manager loop `DNSManager.UpdateDNSRecord`.
* the `fileupdate` package (the snapshot providing `SetLogger` and
  `GetCurrentValue`, which is the one `internal/updater` compiles against):
  `UpdateIP`, `processIPWithMask`, `setNestedValue`, `getNestedValue`,
  `atomicWrite`.
* the provider adapters: signing functions and record-id resolution.

Strings are modelled as `String` / `List Char`; Go maps as association
lists with replace-on-insert; fallible Go functions as `Except` /
`Option`-returning functions; the mutation a Go function performs on a
map passed by reference is made explicit by returning the updated map.
-/

namespace IpUpdater

/-! ## Strings: Go substring helpers from internal/updater/updater.go -/

/-- Embedding of the Go slice test `s[i:i+len(sub)] == sub` at position 0:
`startsWithL sub s` is true when `sub` is an initial segment of `s`. -/
def startsWithL : List Char → List Char → Bool
  | [], _ => true
  | _ :: _, [] => false
  | a :: as, b :: bs => a == b && startsWithL as bs

/-- Embedding of `containsSubstring` (updater.go:192-199): scans every
position of `s` for an occurrence of `sub`. -/
def containsSubstringGo : List Char → List Char → Bool
  | [], sub => sub.isEmpty
  | c :: t, sub => startsWithL sub (c :: t) || containsSubstringGo t sub

/-- Embedding of `containsIgnoreCase` (updater.go:183-190).  Despite its
name the Go function never changes case; it is a length guard plus
equality, a head test, a tail test, and a full substring scan. -/
def containsIgnoreCase (s sub : List Char) : Bool :=
  decide (sub.length ≤ s.length) &&
    (s == sub ||
      (decide (sub.length < s.length) &&
        (s.take sub.length == sub ||
         s.drop (s.length - sub.length) == sub ||
         containsSubstringGo s sub)))

/-- The terminal-error vocabulary of `isNonRetryableError`
(updater.go:165-172), verbatim. -/
def nonRetryableErrors : List String :=
  ["invalid credentials",
   "unauthorized",
   "file not found",
   "permission denied",
   "invalid format",
   "unsupported"]

/-- Embedding of `isNonRetryableError` (updater.go:161-181). -/
def isNonRetryableError (err : String) : Bool :=
  nonRetryableErrors.any fun sub => containsIgnoreCase err.toList sub.toList

/-- The vocabulary as the specification words it: "invalid credentials,
unauthorized, file not found, permission denied, invalid/unsupported
format".  This definition follows the spec, not the source; it exists
only to be compared against `isNonRetryableError`. -/
def specTerminalVocabulary : List String :=
  ["invalid credentials",
   "unauthorized",
   "file not found",
   "permission denied",
   "invalid format",
   "unsupported format"]

/-- Spec-side classifier: terminal iff the message matches an entry of
the spec vocabulary (substring match). -/
def specTerminalVocabularyMatch (err : String) : Bool :=
  specTerminalVocabulary.any fun sub => containsSubstringGo err.toList sub.toList

/-! ## Retry layer: updateDNSWithRetry / updateFileWithRetry -/

/-- One pass of the Go loop
`for attempt := 0; attempt <= maxRetries; attempt++` shared by
`updateDNSWithRetry` (updater.go:98-115) and `updateFileWithRetry`
(updater.go:139-156).  `op n` is the outcome of invoking the update
operation on attempt `n` (`none` = success).  Returns the number of
invocations made together with the final error. -/
def retryLoop (op : Nat → Option String) : Nat → Nat → Nat × Option String
  | 0, calls => (calls, some "update failed: attempts exhausted")
  | fuel + 1, calls =>
    match op calls with
    | none => (calls + 1, none)
    | some e =>
      if isNonRetryableError e then (calls + 1, some e)
      else retryLoop op fuel (calls + 1)

/-- Embedding of the retry wrappers (updater.go:92-118 and 120-159):
`maxRetries = -1` becomes 999999, and the loop body runs for attempts
`0 .. maxRetries` inclusive, i.e. `maxRetries + 1` iterations. -/
def updateWithRetry (maxRetries : Int) (op : Nat → Option String) :
    Nat × Option String :=
  let mr : Int := if maxRetries = -1 then 999999 else maxRetries
  retryLoop op (mr + 1).toNat 0

/-! ### Facts about the substring helpers -/

theorem startsWithL_iff (sub : List Char) :
    ∀ s, startsWithL sub s = true ↔ ∃ t, s = sub ++ t := by
  induction sub with
  | nil => intro s; simp [startsWithL]
  | cons a as ih =>
    intro s
    cases s with
    | nil => simp [startsWithL]
    | cons b bs =>
      simp only [startsWithL, Bool.and_eq_true, beq_iff_eq]
      constructor
      · rintro ⟨rfl, h⟩
        obtain ⟨t, rfl⟩ := (ih bs).mp h
        exact ⟨t, rfl⟩
      · rintro ⟨t, h⟩
        simp only [List.cons_append, List.cons.injEq] at h
        obtain ⟨rfl, h⟩ := h
        exact ⟨rfl, (ih bs).mpr ⟨t, h⟩⟩

theorem containsSubstringGo_iff (s sub : List Char) :
    containsSubstringGo s sub = true ↔ ∃ p t, s = p ++ sub ++ t := by
  induction s with
  | nil =>
    simp only [containsSubstringGo, List.isEmpty_iff]
    constructor
    · rintro rfl; exact ⟨[], [], rfl⟩
    · rintro ⟨p, t, h⟩
      rcases List.append_eq_nil.mp h.symm with ⟨h1, h2⟩
      rcases List.append_eq_nil.mp h1 with ⟨-, h3⟩
      exact h3
  | cons c rest ih =>
    simp only [containsSubstringGo, Bool.or_eq_true]
    constructor
    · rintro (h | h)
      · obtain ⟨t, ht⟩ := (startsWithL_iff sub (c :: rest)).mp h
        exact ⟨[], t, by simpa using ht⟩
      · obtain ⟨p, t, ht⟩ := ih.mp h
        exact ⟨c :: p, t, by simp [ht]⟩
    · rintro ⟨p, t, h⟩
      cases p with
      | nil =>
        left
        exact (startsWithL_iff sub (c :: rest)).mpr ⟨t, by simpa using h⟩
      | cons p0 ps =>
        right
        simp only [List.cons_append, List.cons.injEq] at h
        exact ih.mpr ⟨ps, t, h.2⟩

theorem containsIgnoreCase_iff (s sub : List Char) :
    containsIgnoreCase s sub = true ↔ ∃ p t, s = p ++ sub ++ t := by
  constructor
  · intro h
    simp only [containsIgnoreCase, Bool.and_eq_true, Bool.or_eq_true,
      decide_eq_true_eq, beq_iff_eq] at h
    obtain ⟨hlen, hcases⟩ := h
    rcases hcases with heq | ⟨hlt, hsub⟩
    · exact ⟨[], [], by simp [heq]⟩
    · rcases hsub with (h1 | h2) | h3
      · refine ⟨[], s.drop sub.length, ?_⟩
        have hs := List.take_append_drop sub.length s
        rw [h1] at hs
        simp only [List.nil_append]
        exact hs.symm
      · refine ⟨s.take (s.length - sub.length), [], ?_⟩
        have hs := List.take_append_drop (s.length - sub.length) s
        rw [h2] at hs
        simp only [List.append_nil]
        exact hs.symm
      · exact (containsSubstringGo_iff s sub).mp h3
  · rintro ⟨p, t, rfl⟩
    simp only [containsIgnoreCase, Bool.and_eq_true, Bool.or_eq_true,
      decide_eq_true_eq, beq_iff_eq]
    have hlen : sub.length ≤ (p ++ sub ++ t).length := by
      simp only [List.length_append]; omega
    refine ⟨hlen, ?_⟩
    by_cases hlt : sub.length < (p ++ sub ++ t).length
    · exact Or.inr ⟨hlt, Or.inr
        ((containsSubstringGo_iff _ sub).mpr ⟨p, t, rfl⟩)⟩
    · left
      have hp : p.length = 0 ∧ t.length = 0 := by
        simp only [List.length_append] at hlt; omega
      have hpe : p = [] := List.eq_nil_of_length_eq_zero hp.1
      have hte : t = [] := List.eq_nil_of_length_eq_zero hp.2
      simp [hpe, hte]

/-! ### Claim C2: retry invocation count -/

theorem retryLoop_always_retryable (op : Nat → Option String)
    (h : ∀ n, ∃ e, op n = some e ∧ isNonRetryableError e = false) :
    ∀ fuel calls, (retryLoop op fuel calls).1 = calls + fuel := by
  intro fuel
  induction fuel with
  | zero => intro calls; simp [retryLoop]
  | succ n ih =>
    intro calls
    obtain ⟨e, he, hnr⟩ := h calls
    simp only [retryLoop, he, hnr, Bool.false_eq_true, if_false]
    rw [ih (calls + 1)]
    omega

/-- Claim C2 (amended): with `max_retries = m ≥ 0` and an update
operation that always fails with a retryable error, the retry layer
invokes the operation exactly `m + 1` times (one initial attempt plus
`m` retries) before returning failure.  In particular `max_retries = 3`
yields 4 invocations, not 3. -/
theorem c2_retry_invocation_count (m : Nat) (op : Nat → Option String)
    (h : ∀ n, ∃ e, op n = some e ∧ isNonRetryableError e = false) :
    (updateWithRetry (m : Int) op).1 = m + 1 := by
  have hne : (m : Int) ≠ -1 := by omega
  simp only [updateWithRetry, hne, if_false]
  have htn : ((m : Int) + 1).toNat = m + 1 := by omega
  rw [htn, retryLoop_always_retryable op h (m + 1) 0]
  omega

/-- Witness for C2's amendment at `max_retries = 3` and a concrete
always-retryable failure. -/
theorem c2_retry_invocation_count_witness :
    (updateWithRetry ((3 : Nat) : Int) (fun _ => some "connection timeout")).1 = 3 + 1 :=
  c2_retry_invocation_count 3 (fun _ => some "connection timeout")
    (fun _ => ⟨"connection timeout", rfl, by decide⟩)

/-- Counterexample to claim C2 as stated: with `max_retries = 3` the
always-retryably-failing operation is invoked 4 times, not 3. -/
theorem c2_counterexample :
    (updateWithRetry 3 (fun _ => some "connection timeout")).1 = 4 ∧
    (updateWithRetry 3 (fun _ => some "connection timeout")).1 ≠ 3 := by
  constructor <;> decide

/-! ### Claim C7: terminal-error classification -/

/-- Claim C7 (amended): the code classifies an error as terminal exactly
when its message contains one of the six literal strings of
`nonRetryableErrors` as a (case-sensitive) substring — the sixth entry
is the bare word "unsupported", not "unsupported format". -/
theorem c7_terminal_classification (e : String) :
    isNonRetryableError e = true ↔
      ∃ sub ∈ nonRetryableErrors, ∃ p t, e.toList = p ++ sub.toList ++ t := by
  simp only [isNonRetryableError, List.any_eq_true]
  constructor
  · rintro ⟨sub, hmem, hc⟩
    exact ⟨sub, hmem, (containsIgnoreCase_iff _ _).mp hc⟩
  · rintro ⟨sub, hmem, hsplit⟩
    exact ⟨sub, hmem, (containsIgnoreCase_iff _ _).mpr hsplit⟩

/-- Witness for C7's amendment: "request unauthorized by server" is
terminal because it contains "unauthorized". -/
theorem c7_terminal_classification_witness :
    isNonRetryableError "request unauthorized by server" = true :=
  (c7_terminal_classification "request unauthorized by server").mpr
    ⟨"unauthorized", by decide,
     "request ".toList, " by server".toList, by decide⟩

/-- Counterexample to claim C7 as stated: "unsupported provider: x"
matches none of the spec's vocabulary entries (in particular not
"unsupported format"), yet the code classifies it as terminal and never
retries it. -/
theorem c7_counterexample :
    isNonRetryableError "unsupported provider: x" = true ∧
    specTerminalVocabularyMatch "unsupported provider: x" = false := by
  constructor <;> decide

/-! ## DNS Synchronization Manager: pkg/dns/interface.go -/

/-- A desired record from configuration (`config.DNSRecord`). -/
structure ConfigRecord where
  name : String
  rtype : String
  ttl : Int
deriving DecidableEq, Repr

/-- An observed record fetched from a provider (`dns.DNSRecord`). -/
structure ObservedRecord where
  name : String
  rtype : String
  value : String
  ttl : Int
deriving DecidableEq, Repr

/-- Go map write `m[k] = v` on a string-keyed map, modelled as an
association list with replace-on-insert. -/
def smapInsert : List (String × String) → String → String → List (String × String)
  | [], k, v => [(k, v)]
  | (k0, v0) :: t, k, v =>
    if k0 = k then (k, v) :: t else (k0, v0) :: smapInsert t k v

/-- Go map read `m[k]` with its `found` flag. -/
def smapLookup : List (String × String) → String → Option String
  | [], _ => none
  | (k0, v0) :: t, k => if k0 = k then some v0 else smapLookup t k

/-- Building `recordsMap` (interface.go:91-97): key `name + "/" + type`,
value the record's current value; a later record with the same key
overwrites an earlier one, as with a Go map. -/
def buildRecordsMap (records : List ObservedRecord) : List (String × String) :=
  records.foldl (fun m rec => smapInsert m (rec.name ++ "/" ++ rec.rtype) rec.value) []

/-- The degraded-fetch fallback (interface.go:80-97): a failed
`GetRecords` yields an empty map, so every record looks new. -/
def recordsMapOf (fetch : Except String (List ObservedRecord)) : List (String × String) :=
  match fetch with
  | .error _ => []
  | .ok records => buildRecordsMap records

/-- The skip test of interface.go:109-119: the record is skipped exactly
when the lookup hits and the current value equals the desired ip. -/
def recordSkipped (m : List (String × String)) (ip : String) (r : ConfigRecord) : Bool :=
  match smapLookup m (r.name ++ "/" ++ r.rtype) with
  | some currentIP => currentIP = ip
  | none => false

/-- The per-record loop of `UpdateDNSRecord` (interface.go:100-140).
`upd r` is the outcome of `provider.UpdateRecord` for record `r`.
Returns the list of records for which `UpdateRecord` was invoked (in
order) and the error returned by the loop: on the first failing
`UpdateRecord` the function returns that error immediately
(interface.go:130-135), leaving the rest of the list unprocessed. -/
def updateDNSRecordLoop (m : List (String × String)) (ip : String)
    (upd : ConfigRecord → Except String Unit) :
    List ConfigRecord → List ConfigRecord × Option String
  | [] => ([], none)
  | r :: rest =>
    if recordSkipped m ip r then
      updateDNSRecordLoop m ip upd rest
    else
      match upd r with
      | .error e => ([r], some e)
      | .ok _ =>
        let p := updateDNSRecordLoop m ip upd rest
        (r :: p.1, p.2)

/-- `DNSManager.UpdateDNSRecord` (interface.go:52-143) after provider
resolution and credential attachment: fetch once, build the map, run the
loop. -/
def updateDNSRecord (fetch : Except String (List ObservedRecord))
    (records : List ConfigRecord) (ip : String)
    (upd : ConfigRecord → Except String Unit) :
    List ConfigRecord × Option String :=
  updateDNSRecordLoop (recordsMapOf fetch) ip upd records

/-! ### Claim C1: failure handling inside one target -/

/-- First record of the C1 counterexample target. -/
def c1RecordA : ConfigRecord := ⟨"www", "A", 600⟩

/-- Second record of the C1 counterexample target. -/
def c1RecordB : ConfigRecord := ⟨"mail", "A", 600⟩

/-- Counterexample to claim C1: with two desired records whose updates
both fail, `UpdateDNSRecord` invokes `UpdateRecord` only for the first
record and returns its error alone — the second record is never
processed and no aggregate error is built. -/
theorem c1_counterexample :
    (updateDNSRecord (.ok []) [c1RecordA, c1RecordB] "1.2.3.4"
        (fun _ => .error "update failed")).1 = [c1RecordA] ∧
    c1RecordB ∉ (updateDNSRecord (.ok []) [c1RecordA, c1RecordB] "1.2.3.4"
        (fun _ => .error "update failed")).1 ∧
    (updateDNSRecord (.ok []) [c1RecordA, c1RecordB] "1.2.3.4"
        (fun _ => .error "update failed")).2 = some "update failed" := by
  refine ⟨by decide, by decide, by decide⟩

/-- Claim C1 (amended): the first `UpdateRecord` failure
short-circuits the target: whatever records follow the first failing
record, they are not attempted, and the error returned is exactly that
first failure's error (no aggregation).  `pre` are the records handled
before the failure (each either skipped or updated successfully). -/
theorem c1_first_failure_short_circuits
    (m : List (String × String)) (ip : String)
    (upd : ConfigRecord → Except String Unit)
    (pre : List ConfigRecord) (r : ConfigRecord) (post : List ConfigRecord)
    (e : String)
    (hpre : ∀ x ∈ pre, recordSkipped m ip x = true ∨ upd x = .ok ())
    (hr : recordSkipped m ip r = false)
    (he : upd r = .error e) :
    updateDNSRecordLoop m ip upd (pre ++ r :: post) =
      (pre.filter (fun x => !recordSkipped m ip x) ++ [r], some e) := by
  induction pre with
  | nil =>
    simp only [List.nil_append, updateDNSRecordLoop, hr, Bool.false_eq_true,
      if_false, he, List.filter_nil]
  | cons x xs ih =>
    have hx := hpre x (by simp)
    have hxs : ∀ y ∈ xs, recordSkipped m ip y = true ∨ upd y = .ok () :=
      fun y hy => hpre y (by simp [hy])
    rcases hx with hskip | hok
    · simp only [List.cons_append, updateDNSRecordLoop, hskip, if_true,
        List.filter_cons, hskip, Bool.not_true, Bool.false_eq_true, if_false]
      exact ih hxs
    · by_cases hxsk : recordSkipped m ip x = true
      · simp only [List.cons_append, updateDNSRecordLoop, hxsk, if_true,
          List.filter_cons, hxsk, Bool.not_true, Bool.false_eq_true, if_false]
        exact ih hxs
      · have hxf : recordSkipped m ip x = false := by
          cases h : recordSkipped m ip x
          · rfl
          · exact absurd h hxsk
        simp only [List.cons_append, updateDNSRecordLoop, hxf, Bool.false_eq_true,
          if_false, hok, List.filter_cons, hxf, Bool.not_false, if_true,
          List.append_eq]
        rw [ih hxs]

/-- Witness for C1's amendment: a concrete target where the first record
updates fine, the second fails, and a third is configured after it. -/
theorem c1_first_failure_short_circuits_witness :
    updateDNSRecordLoop [] "1.2.3.4"
        (fun r => if r.name = "mail" then .error "api error" else .ok ())
        ([⟨"www", "A", 600⟩] ++ ⟨"mail", "A", 600⟩ :: [⟨"ftp", "A", 600⟩]) =
      ([⟨"www", "A", 600⟩].filter
          (fun x => !recordSkipped [] "1.2.3.4" x) ++ [⟨"mail", "A", 600⟩],
        some "api error") :=
  c1_first_failure_short_circuits [] "1.2.3.4"
    (fun r => if r.name = "mail" then .error "api error" else .ok ())
    [⟨"www", "A", 600⟩] ⟨"mail", "A", 600⟩ [⟨"ftp", "A", 600⟩] "api error"
    (by intro x hx; right; simp at hx; subst hx; rfl)
    (by rfl) (by rfl)

/-! ## Structured File Mutator: the fileupdate package

The operative snapshot is the one providing `SetLogger`, `GetCurrentValue`
and `atomicWrite` (src/unnamed/part_004), since `internal/updater`
calls `SetLogger` and `UpdateIP`'s change detection.  Documents parsed
from JSON/YAML/TOML are `map[string]interface{}` values, modelled by
`GoVal`; a Go map is an association list with replace-on-insert, and the
in-place mutation a Go function performs on a map reference is made
explicit by returning the updated map. -/

/-- A decoded document value (`interface{}` after unmarshalling). -/
inductive GoVal where
  | vnull : GoVal
  | vbool : Bool → GoVal
  | vnum : Int → GoVal
  | vstr : String → GoVal
  | varr : List GoVal → GoVal
  | vmap : List (String × GoVal) → GoVal

/-- Go map read `m[k]`. -/
def mlookup : List (String × GoVal) → String → Option GoVal
  | [], _ => none
  | (k0, v0) :: t, k => if k0 = k then some v0 else mlookup t k

/-- Go map write `m[k] = v`. -/
def minsert : List (String × GoVal) → String → GoVal → List (String × GoVal)
  | [], k, v => [(k, v)]
  | (k0, v0) :: t, k, v =>
    if k0 = k then (k, v) :: t else (k0, v0) :: minsert t k v

/-- Embedding of `setNestedValue` (the loop over `keys[:len(keys)-1]`
plus the final assignment).  `step` is the 1-based loop index used in
the error message.  The Go test `current[key] == nil` is true both for
a missing key and for an explicit null, and in either case the code
overwrites the slot with a fresh empty map before descending; an
intermediate value that is non-nil but not a map aborts with an error.
The returned map reflects every mutation performed before returning,
exactly as the caller's map does in Go. -/
def setNestedValueAux : Nat → List (String × GoVal) → List String → GoVal →
    Option String × List (String × GoVal)
  | _, m, [], _ => (none, m)
  | _, m, [k], v => (none, minsert m k v)
  | step, m, k :: k2 :: rest, v =>
    match mlookup m k with
    | some (GoVal.vmap m2) =>
      let r := setNestedValueAux (step + 1) m2 (k2 :: rest) v
      (r.1, minsert m k (GoVal.vmap r.2))
    | some GoVal.vnull =>
      let r := setNestedValueAux (step + 1) [] (k2 :: rest) v
      (r.1, minsert m k (GoVal.vmap r.2))
    | none =>
      let r := setNestedValueAux (step + 1) [] (k2 :: rest) v
      (r.1, minsert m k (GoVal.vmap r.2))
    | some _ =>
      (some ("invalid path at key " ++ k ++ " (step " ++ toString step ++ ")"), m)

/-- `setNestedValue(data, keyPath, value)` with the keyPath already
split on '/' (Go `strings.Split` never yields an empty list). -/
def setNestedValue (m : List (String × GoVal)) (keys : List String) (v : GoVal) :
    Option String × List (String × GoVal) :=
  setNestedValueAux 1 m keys v

/-- Embedding of `getNestedValue`: pure traversal, no creation; an
intermediate key whose value is not a map (including missing and null)
is `invalid path`, a missing terminal key is `key not found`. -/
def getNestedValueAux : Nat → List (String × GoVal) → List String →
    Except String GoVal
  | _, _, [] => .error "empty key path"
  | _, m, [k] =>
    match mlookup m k with
    | some v => .ok v
    | none => .error ("key not found: " ++ k)
  | step, m, k :: k2 :: rest =>
    match mlookup m k with
    | some (GoVal.vmap m2) => getNestedValueAux (step + 1) m2 (k2 :: rest)
    | _ => .error ("invalid path at key " ++ k ++ " (step " ++ toString step ++ ")")

/-- Embedding of `GetCurrentValue` after parsing: traverse the document
and require a string leaf. -/
def getCurrentValue (m : List (String × GoVal)) (keys : List String) :
    Except String String :=
  match getNestedValueAux 1 m keys with
  | .error e => .error e
  | .ok (GoVal.vstr s) => .ok s
  | .ok _ => .error "value is not a string"

/-! ### Mask merge: processIPWithMask -/

/-- The anchored lazy regex match of `^(.+?)(/\d+)$` on a character
list, Go RE2 semantics: the value matches iff it ends in '/' followed by
a nonempty digit run, with a nonempty lead part that contains no newline
(RE2's `.` does not match a newline).  Returns the lead part and the
digit run. -/
def maskSplitL (cs : List Char) : Option (List Char × List Char) :=
  match cs.reverse.dropWhile Char.isDigit with
  | c :: rpre =>
    if c = '/' then
      if (cs.reverse.takeWhile Char.isDigit).isEmpty || rpre.isEmpty ||
          decide ('\n' ∈ rpre) then none
      else some (rpre.reverse, (cs.reverse.takeWhile Char.isDigit).reverse)
    else none
  | [] => none

/-- Embedding of `processIPWithMask`: if the current value matches
`^(.+?)(/\d+)$` the new value is the new IP with the mask suffix
carried over, otherwise the new IP verbatim.  The `net.ParseIP`
validations in the source only emit warnings and never affect the
result. -/
def processIPWithMask (currentValue newIP : String) : String :=
  match maskSplitL currentValue.toList with
  | some (_, ds) => newIP ++ "/" ++ String.mk ds
  | none => newIP

/-! ### UpdateIP -/

/-- Externally visible file-system effects of one `UpdateIP` call. -/
inductive FileEffect where
  | backupOriginal : FileEffect
  | writeFile : List (String × GoVal) → FileEffect

/-- The mutation path of `UpdateIP`: create the backup if enabled, then
parse, set the nested value and write the serialized tree back (the
JSON/YAML/TOML branches differ only in serialization, which the model
abstracts by carrying the updated document in the write effect). -/
def applyFileUpdate (doc : List (String × GoVal)) (keys : List String)
    (newVal : String) (backupEnabled : Bool) :
    List FileEffect × Except String (List (String × GoVal)) :=
  match (setNestedValue doc keys (GoVal.vstr newVal)).1 with
  | some e =>
    ((if backupEnabled then [FileEffect.backupOriginal] else []), .error e)
  | none =>
    ((if backupEnabled then [FileEffect.backupOriginal] else []) ++
       [FileEffect.writeFile (setNestedValue doc keys (GoVal.vstr newVal)).2],
     .ok (setNestedValue doc keys (GoVal.vstr newVal)).2)

/-- Embedding of `FileUpdater.UpdateIP`: read the current value; when it
is present and already equals the mask-merged new value, return before
creating any backup or performing any write; otherwise update with the
merged value (or the raw new IP when the current value could not be
read). -/
def updateIP (doc : List (String × GoVal)) (keys : List String)
    (newIP : String) (backupEnabled : Bool) :
    List FileEffect × Except String (List (String × GoVal)) :=
  match getCurrentValue doc keys with
  | .ok currentValue =>
    if currentValue = processIPWithMask currentValue newIP then ([], .ok doc)
    else applyFileUpdate doc keys (processIPWithMask currentValue newIP)
      backupEnabled
  | .error _ => applyFileUpdate doc keys newIP backupEnabled

/-! ### Claim C3: unchanged value means no write and no backup -/

/-- Claim C3: when the keyPath resolves to a string equal to the
mask-merged desired IP, `UpdateIP` performs no effect at all — no file
write and no backup, even with backups enabled. -/
theorem c3_no_write_when_value_current (doc : List (String × GoVal))
    (keys : List String) (newIP : String) (backupEnabled : Bool) (cur : String)
    (hget : getCurrentValue doc keys = .ok cur)
    (heq : cur = processIPWithMask cur newIP) :
    updateIP doc keys newIP backupEnabled = ([], .ok doc) := by
  simp only [updateIP, hget, ← heq, if_pos rfl, eq_self_iff_true, if_true]

/-- Document for the C3 witness: the spec's scenario file
`\x7b"server":\x7b"public_ip":"1.2.3.3"\x7d\x7d`. -/
def c3Doc : List (String × GoVal) :=
  [("server", GoVal.vmap [("public_ip", GoVal.vstr "1.2.3.3")])]

/-- Witness for C3 on the spec's scenario: desired IP equal to the file
value, backups enabled — no effects. -/
theorem c3_no_write_when_value_current_witness :
    updateIP c3Doc ["server", "public_ip"] "1.2.3.3" true = ([], .ok c3Doc) :=
  c3_no_write_when_value_current c3Doc ["server", "public_ip"] "1.2.3.3" true
    "1.2.3.3" rfl rfl

/-! ### Claim C4: mask preservation -/

/-- Counterexample to claim C4 as stated: the claim's "any string X"
includes the empty string, but the regex `^(.+?)(/\d+)$` requires a
nonempty lead, so for current value "/24" the merge returns the new IP
verbatim instead of carrying the mask. -/
theorem c4_counterexample :
    processIPWithMask "/24" "9.9.9.9" = "9.9.9.9" ∧
    processIPWithMask "/24" "9.9.9.9" ≠ "9.9.9.9" ++ "/24" := by
  constructor <;> decide

/-- takeWhile/dropWhile across a block of satisfying elements followed
by a failing one. -/
theorem takeWhile_dropWhile_block (p : Char → Bool) :
    ∀ (a : List Char) (b : Char) (r : List Char),
      (∀ c ∈ a, p c = true) → p b = false →
      (a ++ b :: r).takeWhile p = a ∧ (a ++ b :: r).dropWhile p = b :: r := by
  intro a
  induction a with
  | nil =>
    intro b r _ hb
    simp [List.takeWhile, List.dropWhile, hb]
  | cons x xs ih =>
    intro b r ha hb
    have hx : p x = true := ha x (by simp)
    have hxs : ∀ c ∈ xs, p c = true := fun c hc => ha c (by simp [hc])
    obtain ⟨h1, h2⟩ := ih b r hxs hb
    constructor
    · simp [List.takeWhile, hx, h1]
    · simp [List.dropWhile, hx, h2]

/-- Evaluation of the regex match on a value of the shape `X ++ "/" ++ ds`
with `X` nonempty and newline-free and `ds` a nonempty digit run. -/
theorem maskSplitL_append (X ds : List Char)
    (hX : X ≠ []) (hXn : '\n' ∉ X)
    (hds : ds ≠ []) (hdig : ∀ c ∈ ds, c.isDigit = true) :
    maskSplitL (X ++ '/' :: ds) = some (X, ds) := by
  have hrev : (X ++ '/' :: ds).reverse = ds.reverse ++ '/' :: X.reverse := by
    simp [List.reverse_append]
  have hdigr : ∀ c ∈ ds.reverse, Char.isDigit c = true := by
    intro c hc; exact hdig c (List.mem_reverse.mp hc)
  have hslash : Char.isDigit '/' = false := by decide
  obtain ⟨htake, hdrop⟩ :=
    takeWhile_dropWhile_block Char.isDigit ds.reverse '/' X.reverse hdigr hslash
  have hne1 : ds.reverse.isEmpty = false := by
    cases h : ds.reverse.isEmpty
    · rfl
    · exact absurd (List.reverse_eq_nil_iff.mp (List.isEmpty_iff.mp h)) hds
  have hne2 : X.reverse.isEmpty = false := by
    cases h : X.reverse.isEmpty
    · rfl
    · exact absurd (List.reverse_eq_nil_iff.mp (List.isEmpty_iff.mp h)) hX
  have hnc : decide ('\n' ∈ X.reverse) = false := by
    simp only [decide_eq_false_iff_not, List.mem_reverse]
    exact hXn
  simp only [maskSplitL, hrev, htake, hdrop, if_pos rfl, eq_self_iff_true,
    if_true, hne1, hne2, hnc, Bool.or_self, Bool.or_false,
    Bool.false_eq_true, if_false, List.reverse_reverse]

/-- Claim C4 (amended): for every current value of the form `X/N` with
`X` nonempty and newline-free and `N` a nonempty digit run, the merge
returns exactly `Y/N`; for every current value that does not match the
pattern it returns `Y` verbatim.  No IP-syntax validation affects the
result (the embedding contains none). -/
theorem c4_mask_preservation :
    (∀ (X N Y : String), X.toList ≠ [] → '\n' ∉ X.toList →
      N.toList ≠ [] → (∀ c ∈ N.toList, c.isDigit = true) →
      processIPWithMask (X ++ "/" ++ N) Y = Y ++ "/" ++ N) ∧
    (∀ (C Y : String), maskSplitL C.toList = none →
      processIPWithMask C Y = Y) := by
  constructor
  · intro X N Y hX hXn hN hNd
    have hdata : (X ++ "/" ++ N).toList = X.toList ++ '/' :: N.toList := by
      show (X ++ "/" ++ N).data = X.data ++ '/' :: N.data
      simp [String.data_append]
    have hsplit := maskSplitL_append X.toList N.toList hX hXn hN hNd
    have hmk : String.mk N.toList = N := rfl
    simp only [processIPWithMask, hdata, hsplit, hmk]
  · intro C Y hnone
    simp only [processIPWithMask, hnone]

/-- Witness for C4's amendment at `X = "10.0.0.7"`, `N = "16"`,
`Y = "10.0.0.9"`, and at the non-matching current value "plain". -/
theorem c4_mask_preservation_witness :
    processIPWithMask ("10.0.0.7" ++ "/" ++ "16") "10.0.0.9" =
      "10.0.0.9" ++ "/" ++ "16" ∧
    processIPWithMask "plain" "10.0.0.9" = "10.0.0.9" :=
  ⟨c4_mask_preservation.1 "10.0.0.7" "16" "10.0.0.9"
      (by decide) (by decide) (by decide) (by decide),
   c4_mask_preservation.2 "plain" "10.0.0.9" (by decide)⟩

/-! ### Claim C10: setNestedValue atomicity on failure -/

/-- Descending into a freshly created empty map can never fail: every
lookup misses, so every level is created. -/
theorem setNestedValueAux_from_empty :
    ∀ (keys : List String) (step : Nat) (v : GoVal),
      (setNestedValueAux step [] keys v).1 = none := by
  intro keys
  induction keys with
  | nil => intro step v; rfl
  | cons k rest ih =>
    intro step v
    cases rest with
    | nil => rfl
    | cons k2 rest2 =>
      simp only [setNestedValueAux, mlookup]
      exact ih (step + 1) v

/-- Re-inserting the value already present leaves the map unchanged. -/
theorem minsert_self :
    ∀ (m : List (String × GoVal)) (k : String) (v : GoVal),
      mlookup m k = some v → minsert m k v = m := by
  intro m
  induction m with
  | nil => intro k v h; exact absurd h (by simp [mlookup])
  | cons e t ih =>
    intro k v h
    obtain ⟨k0, v0⟩ := e
    by_cases hk : k0 = k
    · subst hk
      simp only [mlookup, if_pos rfl, eq_self_iff_true, if_true,
        Option.some.injEq] at h
      subst h
      simp [minsert]
    · simp only [mlookup, if_neg hk] at h
      simp [minsert, hk, ih k v h]

/-- Claim C10: `setNestedValue` is atomic on failure — whenever it
returns an error, the document map it leaves behind is exactly the input
map; intermediate levels are only created on traversals that go on to
succeed. -/
theorem c10_setNestedValue_atomic_on_failure :
    ∀ (keys : List String) (step : Nat) (m : List (String × GoVal))
      (v : GoVal) (e : String),
      (setNestedValueAux step m keys v).1 = some e →
      (setNestedValueAux step m keys v).2 = m := by
  intro keys
  induction keys with
  | nil => intro step m v e h; exact absurd h (by simp [setNestedValueAux])
  | cons k rest ih =>
    intro step m v e h
    cases rest with
    | nil => exact absurd h (by simp [setNestedValueAux])
    | cons k2 rest2 =>
      cases hl : mlookup m k with
      | none =>
        simp only [setNestedValueAux, hl] at h
        exact absurd h (by simp [setNestedValueAux_from_empty])
      | some v0 =>
        cases v0 with
        | vnull =>
          simp only [setNestedValueAux, hl] at h
          exact absurd h (by simp [setNestedValueAux_from_empty])
        | vmap m2 =>
          simp only [setNestedValueAux, hl] at h ⊢
          have h2 := ih (step + 1) m2 v e h
          rw [h2]
          exact minsert_self m k (GoVal.vmap m2) hl
        | vbool b => simp only [setNestedValueAux, hl]
        | vnum n => simp only [setNestedValueAux, hl]
        | vstr s => simp only [setNestedValueAux, hl]
        | varr a => simp only [setNestedValueAux, hl]

/-- Witness for C10: a path whose first segment hits a string leaf —
the call errors and the document is returned untouched. -/
theorem c10_setNestedValue_atomic_on_failure_witness :
    (setNestedValueAux 1 [("a", GoVal.vstr "x")] ["a", "b"]
        (GoVal.vstr "9.9.9.9")).2 = [("a", GoVal.vstr "x")] :=
  c10_setNestedValue_atomic_on_failure ["a", "b"] 1 [("a", GoVal.vstr "x")]
    (GoVal.vstr "9.9.9.9") "invalid path at key a (step 1)" rfl

/-! ### Claim C5: idempotence of Sync and UpdateIP -/

/-- A key just written is the key read back. -/
theorem mlookup_minsert :
    ∀ (m : List (String × GoVal)) (k : String) (v : GoVal),
      mlookup (minsert m k v) k = some v := by
  intro m
  induction m with
  | nil => intro k v; simp [minsert, mlookup]
  | cons e t ih =>
    intro k v
    obtain ⟨k0, v0⟩ := e
    by_cases hk : k0 = k
    · subst hk
      simp [minsert, mlookup]
    · simp [minsert, hk, mlookup, ih]

/-- Reading a path immediately after a successful nested write returns
the written value. -/
theorem getNested_after_set :
    ∀ (keys : List String) (step : Nat) (m : List (String × GoVal)) (v : GoVal),
      keys ≠ [] →
      (setNestedValueAux step m keys v).1 = none →
      getNestedValueAux step (setNestedValueAux step m keys v).2 keys = .ok v := by
  intro keys
  induction keys with
  | nil => intro step m v hk _; exact absurd rfl hk
  | cons k rest ih =>
    intro step m v _ hnone
    cases rest with
    | nil =>
      simp only [setNestedValueAux, getNestedValueAux, mlookup_minsert]
    | cons k2 rest2 =>
      cases hl : mlookup m k with
      | none =>
        simp only [setNestedValueAux, hl] at hnone ⊢
        simp only [getNestedValueAux, mlookup_minsert]
        exact ih (step + 1) [] v (by simp) (setNestedValueAux_from_empty _ _ _)
      | some v0 =>
        cases v0 with
        | vmap m2 =>
          simp only [setNestedValueAux, hl] at hnone ⊢
          simp only [getNestedValueAux, mlookup_minsert]
          exact ih (step + 1) m2 v (by simp) hnone
        | vnull =>
          simp only [setNestedValueAux, hl] at hnone ⊢
          simp only [getNestedValueAux, mlookup_minsert]
          exact ih (step + 1) [] v (by simp) (setNestedValueAux_from_empty _ _ _)
        | vbool b => simp [setNestedValueAux, hl] at hnone
        | vnum n => simp [setNestedValueAux, hl] at hnone
        | vstr s => simp [setNestedValueAux, hl] at hnone
        | varr a => simp [setNestedValueAux, hl] at hnone

/-- `GetCurrentValue` right after a successful `setNestedValue` of a
string returns that string. -/
theorem getCurrentValue_after_set (doc : List (String × GoVal))
    (keys : List String) (s : String)
    (hk : keys ≠ [])
    (hnone : (setNestedValue doc keys (GoVal.vstr s)).1 = none) :
    getCurrentValue (setNestedValue doc keys (GoVal.vstr s)).2 keys = .ok s := by
  have h := getNested_after_set keys 1 doc (GoVal.vstr s) hk hnone
  simp only [getCurrentValue, setNestedValue] at h ⊢
  rw [h]

/-- Inversion of a successful regex match: the mask component is a
nonempty digit run. -/
theorem maskSplitL_inv (cs X ds : List Char)
    (h : maskSplitL cs = some (X, ds)) :
    ds ≠ [] ∧ ∀ c ∈ ds, c.isDigit = true := by
  unfold maskSplitL at h
  split at h
  · split at h
    · split at h
      · exact absurd h (by simp)
      · rename_i hcond
        simp only [Option.some.injEq, Prod.mk.injEq] at h
        obtain ⟨-, hds⟩ := h
        simp only [Bool.or_eq_true, not_or] at hcond
        obtain ⟨⟨hne, -⟩, -⟩ := hcond
        subst hds
        refine ⟨?_, ?_⟩
        · intro hnil
          have hrw : cs.reverse.takeWhile Char.isDigit = [] :=
            List.reverse_eq_nil_iff.mp hnil
          exact hne (by simp [hrw])
        · intro c hc
          exact List.mem_takeWhile_imp (List.mem_reverse.mp hc)
    · exact absurd h (by simp)
  · exact absurd h (by simp)

/-- Merging the merged value again is a fixed point, provided the
desired IP is nonempty, newline-free and does not itself match the
`X/N` pattern (true of every dotted-quad). -/
theorem processIPWithMask_idem (C Y : String)
    (hY : Y.toList ≠ []) (hYn : '\n' ∉ Y.toList)
    (hYm : maskSplitL Y.toList = none) :
    processIPWithMask (processIPWithMask C Y) Y = processIPWithMask C Y := by
  cases h : maskSplitL C.toList with
  | none => simp only [processIPWithMask, h, hYm]
  | some pr =>
    obtain ⟨X, ds⟩ := pr
    obtain ⟨hds, hdig⟩ := maskSplitL_inv C.toList X ds h
    have hdata : (Y ++ "/" ++ String.mk ds).toList = Y.toList ++ '/' :: ds := by
      show (Y ++ "/" ++ String.mk ds).data = Y.data ++ '/' :: ds
      simp [String.data_append]
    have hsplit := maskSplitL_append Y.toList ds hY hYn hds hdig
    simp only [processIPWithMask, h, hdata, hsplit]

/-- Claim C5: (1) a desired record whose fetched current value equals
the desired IP is never passed to `UpdateRecord`; (2) when every
desired record's fetched value equals the desired IP — as after a
successful first sync — the manager performs zero `UpdateRecord` calls
and returns success; (3) a second `UpdateIP` run on the document
produced by a successful first run with the same (dotted-quad-shaped)
desired IP performs no backup and no write. -/
theorem c5_idempotence :
    (∀ (fetch : Except String (List ObservedRecord)) (rs : List ConfigRecord)
       (ip : String) (upd : ConfigRecord → Except String Unit) (r : ConfigRecord),
       smapLookup (recordsMapOf fetch) (r.name ++ "/" ++ r.rtype) = some ip →
       r ∉ (updateDNSRecord fetch rs ip upd).1) ∧
    (∀ (m : List (String × String)) (ip : String)
       (upd : ConfigRecord → Except String Unit) (rs : List ConfigRecord),
       (∀ r ∈ rs, smapLookup m (r.name ++ "/" ++ r.rtype) = some ip) →
       updateDNSRecordLoop m ip upd rs = ([], none)) ∧
    (∀ (doc docOne : List (String × GoVal)) (keys : List String)
       (Y : String) (b : Bool) (effs : List FileEffect),
       keys ≠ [] → Y.toList ≠ [] → '\n' ∉ Y.toList →
       maskSplitL Y.toList = none →
       updateIP doc keys Y b = (effs, .ok docOne) →
       updateIP docOne keys Y b = ([], .ok docOne)) := by
  refine ⟨?_, ?_, ?_⟩
  · intro fetch rs ip upd r hlook
    unfold updateDNSRecord
    generalize recordsMapOf fetch = m at hlook ⊢
    induction rs with
    | nil => simp [updateDNSRecordLoop]
    | cons x rest ih =>
      by_cases hskip : recordSkipped m ip x = true
      · have hstep : updateDNSRecordLoop m ip upd (x :: rest) =
            updateDNSRecordLoop m ip upd rest := by
          simp [updateDNSRecordLoop, hskip]
        rw [hstep]
        exact ih
      · have hxne : x ≠ r := by
          intro hx
          subst hx
          exact hskip (by simp [recordSkipped, hlook])
        have hsf : recordSkipped m ip x = false := by
          cases hcase : recordSkipped m ip x
          · rfl
          · exact absurd hcase hskip
        cases hu : upd x with
        | error e =>
          simp only [updateDNSRecordLoop, hsf, Bool.false_eq_true, if_false, hu]
          simp only [List.mem_singleton]
          intro hx
          exact hxne hx.symm
        | ok u =>
          simp only [updateDNSRecordLoop, hsf, Bool.false_eq_true, if_false, hu]
          intro hmem
          rcases List.mem_cons.mp hmem with hx | hx
          · exact hxne hx.symm
          · exact ih hx
  · intro m ip upd rs h
    induction rs with
    | nil => rfl
    | cons x rest ih =>
      have hx : recordSkipped m ip x = true := by
        simp [recordSkipped, h x (by simp)]
      have hstep : updateDNSRecordLoop m ip upd (x :: rest) =
          updateDNSRecordLoop m ip upd rest := by
        simp [updateDNSRecordLoop, hx]
      rw [hstep]
      exact ih (fun r hr => h r (by simp [hr]))
  · intro doc docOne keys Y b effs hk hY hYn hYm hrun
    cases hg : getCurrentValue doc keys with
    | ok cur =>
      simp only [updateIP, hg] at hrun
      by_cases hif : cur = processIPWithMask cur Y
      · rw [if_pos hif] at hrun
        simp only [Prod.mk.injEq, Except.ok.injEq] at hrun
        obtain ⟨-, hdoc⟩ := hrun
        subst hdoc
        simp only [updateIP, hg, if_pos hif]
      · rw [if_neg hif] at hrun
        cases hset : (setNestedValue doc keys
            (GoVal.vstr (processIPWithMask cur Y))).1 with
        | some e =>
          simp only [applyFileUpdate, hset] at hrun
          simp at hrun
        | none =>
          simp only [applyFileUpdate, hset] at hrun
          simp only [Prod.mk.injEq, Except.ok.injEq] at hrun
          obtain ⟨-, hdoc⟩ := hrun
          subst hdoc
          have hgc := getCurrentValue_after_set doc keys
            (processIPWithMask cur Y) hk hset
          have hfix := processIPWithMask_idem cur Y hY hYn hYm
          simp only [updateIP, hgc, if_pos hfix.symm]
    | error e0 =>
      simp only [updateIP, hg] at hrun
      cases hset : (setNestedValue doc keys (GoVal.vstr Y)).1 with
      | some e =>
        simp only [applyFileUpdate, hset] at hrun
        simp at hrun
      | none =>
        simp only [applyFileUpdate, hset] at hrun
        simp only [Prod.mk.injEq, Except.ok.injEq] at hrun
        obtain ⟨-, hdoc⟩ := hrun
        subst hdoc
        have hgc := getCurrentValue_after_set doc keys Y hk hset
        have hYm2 : maskSplitL Y.data = none := hYm
        have hfixY : processIPWithMask Y Y = Y := by
          simp [processIPWithMask, hYm2]
        simp only [updateIP, hgc, if_pos hfixY.symm]

/-- Document before the C5 witness's first run. -/
def c5DocBefore : List (String × GoVal) :=
  [("server", GoVal.vmap [("public_ip", GoVal.vstr "5.6.7.8")])]

/-- Document after the C5 witness's first run. -/
def c5DocAfter : List (String × GoVal) :=
  [("server", GoVal.vmap [("public_ip", GoVal.vstr "1.2.3.4")])]

/-- Witness for C5: a record whose fetched value equals the desired IP
is never updated; a target whose records all match is fully skipped;
and the second `UpdateIP` run after a successful write is a no-op. -/
theorem c5_idempotence_witness :
    (⟨"www", "A", 600⟩ : ConfigRecord) ∉
      (updateDNSRecord (.ok [⟨"www", "A", "1.2.3.4", 600⟩])
        [⟨"www", "A", 600⟩] "1.2.3.4" (fun _ => .error "network down")).1 ∧
    updateDNSRecordLoop [("www/A", "1.2.3.4")] "1.2.3.4"
      (fun _ => .error "network down") [⟨"www", "A", 600⟩] = ([], none) ∧
    updateIP c5DocAfter ["server", "public_ip"] "1.2.3.4" true =
      ([], .ok c5DocAfter) :=
  ⟨c5_idempotence.1 (.ok [⟨"www", "A", "1.2.3.4", 600⟩]) [⟨"www", "A", 600⟩]
      "1.2.3.4" (fun _ => .error "network down") ⟨"www", "A", 600⟩ rfl,
   c5_idempotence.2.1 [("www/A", "1.2.3.4")] "1.2.3.4"
      (fun _ => .error "network down") [⟨"www", "A", 600⟩]
      (by intro r hr; simp at hr; subst hr; rfl),
   c5_idempotence.2.2 c5DocBefore c5DocAfter ["server", "public_ip"]
      "1.2.3.4" true
      [FileEffect.backupOriginal, FileEffect.writeFile c5DocAfter]
      (by simp) (by decide) (by decide) (by decide) rfl⟩

/-! ## Claim C6: atomic write

`FileUpdater.atomicWrite` performs, in order: create a temp file in the
target's directory, write the serialized document to it, sync it, close
it, rename it over the original.  The file-system state visible at the
original path is modelled by `FSState`, one field per file; each step of
the procedure is an event, and a crash "after the temp file is written
but before the rename" is a prefix of the event trace. -/

/-- File-system state: the bytes at the original path and the temp
file's content when one exists. -/
structure FSState where
  orig : List Char
  temp : Option (List Char)
deriving DecidableEq, Repr

/-- The primitive file-system operations `atomicWrite` issues. -/
inductive WriteEvent where
  | createTemp : WriteEvent
  | writeTemp : List Char → WriteEvent
  | syncTemp : WriteEvent
  | closeTemp : WriteEvent
  | renameTempOverOrig : WriteEvent
deriving DecidableEq, Repr

/-- Effect of one operation on the file system. -/
def stepFS (s : FSState) (e : WriteEvent) : FSState :=
  match e with
  | .createTemp => { s with temp := some [] }
  | .writeTemp d => { s with temp := some ((s.temp.getD []) ++ d) }
  | .syncTemp => s
  | .closeTemp => s
  | .renameTempOverOrig => { orig := s.temp.getD s.orig, temp := none }

/-- Run a trace of operations. -/
def runFS (s : FSState) (es : List WriteEvent) : FSState := es.foldl stepFS s

/-- The event trace of `atomicWrite(filePath, data)` (part_004:358-399):
create temp, write, sync, close, rename. -/
def atomicWriteEvents (data : List Char) : List WriteEvent :=
  [.createTemp, .writeTemp data, .syncTemp, .closeTemp, .renameTempOverOrig]

/-- `updateJSON` serializes the tree and calls `atomicWrite`. -/
def updateJSONWriteEvents (data : List Char) : List WriteEvent :=
  atomicWriteEvents data

/-- `updateYAML` serializes the tree and calls `atomicWrite`. -/
def updateYAMLWriteEvents (data : List Char) : List WriteEvent :=
  atomicWriteEvents data

/-- `updateTOML` encodes into a buffer and calls `atomicWrite`. -/
def updateTOMLWriteEvents (data : List Char) : List WriteEvent :=
  atomicWriteEvents data

/-- `updateINI` writes the config into a buffer and calls `atomicWrite`. -/
def updateINIWriteEvents (data : List Char) : List WriteEvent :=
  atomicWriteEvents data

/-- Go `strings.ToLower` on ASCII input, used by the format dispatch. -/
def toLowerGo (s : String) : String :=
  String.mk (s.toList.map Char.toLower)

/-- The format dispatch of `UpdateIP` (part_004:84-95), restricted to the
write step each branch performs: every supported format ends in
`atomicWrite`, an unsupported format performs no write at all. -/
def fileWriteEvents (format : String) (data : List Char) :
    Option (List WriteEvent) :=
  match toLowerGo format with
  | "json" => some (updateJSONWriteEvents data)
  | "yaml" => some (updateYAMLWriteEvents data)
  | "yml" => some (updateYAMLWriteEvents data)
  | "toml" => some (updateTOMLWriteEvents data)
  | "ini" => some (updateINIWriteEvents data)
  | _ => none

/-- Claim C6: for every supported format, the write trace is the
temp-write-sync-close-rename sequence; stopping anywhere strictly before
the end of the trace (in particular after the temp file is fully
written) leaves the bytes at the original path untouched, and the
complete trace leaves exactly the serialized document there with the
temp file gone. -/
theorem c6_atomic_write (format : String) (events : List WriteEvent)
    (data : List Char) (s0 : FSState)
    (h : fileWriteEvents format data = some events) :
    (∀ k, k < events.length → (runFS s0 (events.take k)).orig = s0.orig) ∧
    (runFS s0 events).orig = data ∧ (runFS s0 events).temp = none := by
  have hev : events = atomicWriteEvents data := by
    unfold fileWriteEvents at h
    split at h <;> first
      | (simp only [updateJSONWriteEvents, updateYAMLWriteEvents,
          updateTOMLWriteEvents, updateINIWriteEvents,
          Option.some.injEq] at h; exact h.symm)
      | exact absurd h (by simp)
  subst hev
  refine ⟨?_, rfl, rfl⟩
  intro k hk
  have hk5 : k < 5 := by simpa [atomicWriteEvents] using hk
  interval_cases k <;> rfl

/-- Witness for C6 on a JSON target: stopping right after the temp file
is written and synced leaves the original bytes in place, and the full
trace installs the new document. -/
theorem c6_atomic_write_witness :
    (runFS ⟨"old-doc".toList, none⟩
        ((atomicWriteEvents "new-doc".toList).take 3)).orig = "old-doc".toList ∧
    (runFS ⟨"old-doc".toList, none⟩
        (atomicWriteEvents "new-doc".toList)).orig = "new-doc".toList :=
  ⟨(c6_atomic_write "json" (atomicWriteEvents "new-doc".toList)
      "new-doc".toList ⟨"old-doc".toList, none⟩ (by decide)).1 3 (by decide),
   (c6_atomic_write "json" (atomicWriteEvents "new-doc".toList)
      "new-doc".toList ⟨"old-doc".toList, none⟩ (by decide)).2.1⟩

/-! ## Provider adapters

### Claim C8: signing functions

The cryptographic primitives (`crypto/hmac`, `crypto/sha1`,
`crypto/sha256`, `encoding/base64`, `encoding/hex`) and the date
formatter are Go standard-library functions, not repository code; they
are taken as explicit function parameters, so every theorem below holds
for an arbitrary (fixed) choice of them.  Provider structs carry the
fields of the Go structs, with the `*http.Client` as an opaque token;
the theorems show each signature depends on nothing but the credential
fields and the declared arguments. -/

/-- `AliyunProvider` (aliyun.go:27-32). -/
structure AliyunProviderState where
  accessKey : String
  secretKey : String
  endpoint : String
  client : Nat
deriving DecidableEq, Repr

/-- `TencentDNSProvider` (part_002:18-23). -/
structure TencentProviderState where
  secretId : String
  secretKey : String
  endpoint : String
  client : Nat
deriving DecidableEq, Repr

/-- `HuaweiDNSProvider` (part_001:16-21). -/
structure HuaweiProviderState where
  accessKey : String
  secretKey : String
  endpoint : String
  client : Nat
deriving DecidableEq, Repr

/-- Uppercase hex digit of a value below 16. -/
def hexDigitUpper (n : Nat) : Char :=
  if n < 10 then Char.ofNat (48 + n) else Char.ofNat (55 + n)

/-- Percent-encoding of one byte, uppercase hex as in Go's net/url. -/
def percentEncodeByte (n : Nat) : List Char :=
  ['%', hexDigitUpper (n / 16 % 16), hexDigitUpper (n % 16)]

/-- Go `url.QueryEscape` character class: unreserved characters stay. -/
def shouldEscapeChar (c : Char) : Bool :=
  !(c.isAlphanum || c = '-' || c = '_' || c = '.' || c = '~')

/-- Go `url.QueryEscape` on one character (ASCII model: parameter data
sent to the DNS APIs is ASCII; a space becomes '+'). -/
def queryEscapeChar (c : Char) : List Char :=
  if c = ' ' then ['+']
  else if shouldEscapeChar c then percentEncodeByte (c.toNat % 256)
  else [c]

/-- Go `url.QueryEscape`. -/
def queryEscape (s : String) : String :=
  String.mk (s.toList.map queryEscapeChar).flatten

/-- Insertion into a sorted string list. -/
def insertSorted (x : String) : List String → List String
  | [] => [x]
  | y :: t => if x ≤ y then x :: y :: t else y :: insertSorted x t

/-- `sort.Strings`: deterministic lexicographic sort of the key list. -/
def sortStrings : List String → List String
  | [] => []
  | x :: t => insertSorted x (sortStrings t)

/-- Go map read with the zero value for a missing key. -/
def lookupParam : List (String × String) → String → String
  | [], _ => ""
  | (k0, v) :: t, k => if k0 = k then v else lookupParam t k

/-- ASCII bytes of a string (model of Go `[]byte(s)`). -/
def strBytes (s : String) : List Nat :=
  s.toList.map Char.toNat

/-- `AliyunProvider.generateSignature` (aliyun.go:211-237): sort the
parameter keys excluding "Signature", build the escaped query string,
form `method + "&" + escape("/") + "&" + escape(query)`, and HMAC-SHA1
it with key `secretKey + "&"`, base64-encoded. -/
def aliyunGenerateSignature
    (hmacSha1 : String → String → List Nat)
    (base64Encode : List Nat → String)
    (p : AliyunProviderState) (method : String)
    (params : List (String × String)) : String :=
  base64Encode (hmacSha1 (p.secretKey ++ "&")
    (method ++ "&" ++ queryEscape "/" ++ "&" ++
      queryEscape (String.intercalate "&"
        ((sortStrings ((params.map Prod.fst).filter (fun k => k ≠ "Signature"))).map
          (fun k => queryEscape k ++ "=" ++ queryEscape (lookupParam params k))))))

/-- Go `url.Values.Encode`: keys sorted, each `k=v` query-escaped. -/
def urlValuesEncode (params : List (String × String)) : String :=
  String.intercalate "&" ((sortStrings (params.map Prod.fst)).map
    (fun k => queryEscape k ++ "=" ++ queryEscape (lookupParam params k)))

/-- `TencentDNSProvider.generateAuthorization` (part_002:170-215): the
TC3-HMAC-SHA256 scheme — canonical request over fixed headers and the
hashed url-encoded payload, a date-scoped credential, the three-stage
key derivation date→service→request, and the final authorization
header. -/
def tencentGenerateAuthorization
    (hmacSha256 : List Nat → String → List Nat)
    (sha256hex : String → String)
    (hexEncode : List Nat → String)
    (formatDate : Int → String)
    (p : TencentProviderState) (params : List (String × String))
    (timestamp : Int) : String :=
  "TC3-HMAC-SHA256" ++ " Credential=" ++ p.secretId ++ "/" ++
    (formatDate timestamp ++ "/" ++ "dnspod" ++ "/tc3_request") ++
    ", SignedHeaders=" ++ "content-type;host" ++ ", Signature=" ++
    hexEncode (hmacSha256
      (hmacSha256
        (hmacSha256
          (hmacSha256 (strBytes ("TC3" ++ p.secretKey)) (formatDate timestamp))
          "dnspod")
        "tc3_request")
      ("TC3-HMAC-SHA256" ++ "\n" ++ toString timestamp ++ "\n" ++
        (formatDate timestamp ++ "/" ++ "dnspod" ++ "/tc3_request") ++ "\n" ++
        sha256hex
          ("POST" ++ "\n" ++ "/" ++ "\n" ++ "" ++ "\n" ++
            "content-type:application/x-www-form-urlencoded; charset=utf-8\nhost:dnspod.tencentcloudapi.com\n" ++
            "\n" ++ "content-type;host" ++ "\n" ++
            sha256hex (urlValuesEncode params))))

/-- `HuaweiDNSProvider.createCanonicalRequest` (part_001:201-217). -/
def huaweiCreateCanonicalRequest (sha256hex : String → String)
    (method path body timestamp : String) : String :=
  method ++ "\n" ++ path ++ "\n" ++ "" ++ "\n" ++
    ("content-type:application/json\nhost:dns.myhuaweicloud.com\nx-sdk-date:" ++
      timestamp ++ "\n") ++
    "\n" ++ "content-type;host;x-sdk-date" ++ "\n" ++ sha256hex body

/-- `HuaweiDNSProvider.generateAuthorization` (part_001:181-199). -/
def huaweiGenerateAuthorization
    (hmacSha256 : List Nat → String → List Nat)
    (sha256hex : String → String)
    (hexEncode : List Nat → String)
    (p : HuaweiProviderState) (method path body timestamp : String) : String :=
  "SDK-HMAC-SHA256" ++ " Access=" ++ p.accessKey ++
    ", SignedHeaders=content-type;host;x-sdk-date, Signature=" ++
    hexEncode (hmacSha256 (strBytes p.secretKey)
      ("SDK-HMAC-SHA256" ++ "\n" ++ timestamp ++ "\n" ++
        sha256hex (huaweiCreateCanonicalRequest sha256hex method path body
          timestamp)))

/-- Claim C8: each provider's signing function is a pure function of the
credential fields and its declared arguments.  Two provider states that
agree on the credentials — however much they differ in endpoint or HTTP
client state — produce byte-identical signatures for identical inputs;
in particular two invocations on the same state are identical.  This
holds for every choice of the library crypto primitives. -/
theorem c8_signature_determinism :
    (∀ (hmacSha1 : String → String → List Nat)
       (base64Encode : List Nat → String)
       (p q : AliyunProviderState) (method : String)
       (params : List (String × String)),
       p.secretKey = q.secretKey →
       aliyunGenerateSignature hmacSha1 base64Encode p method params =
         aliyunGenerateSignature hmacSha1 base64Encode q method params) ∧
    (∀ (hmacSha256 : List Nat → String → List Nat)
       (sha256hex : String → String) (hexEncode : List Nat → String)
       (formatDate : Int → String)
       (p q : TencentProviderState) (params : List (String × String))
       (timestamp : Int),
       p.secretId = q.secretId → p.secretKey = q.secretKey →
       tencentGenerateAuthorization hmacSha256 sha256hex hexEncode formatDate
           p params timestamp =
         tencentGenerateAuthorization hmacSha256 sha256hex hexEncode formatDate
           q params timestamp) ∧
    (∀ (hmacSha256 : List Nat → String → List Nat)
       (sha256hex : String → String) (hexEncode : List Nat → String)
       (p q : HuaweiProviderState) (method path body timestamp : String),
       p.accessKey = q.accessKey → p.secretKey = q.secretKey →
       huaweiGenerateAuthorization hmacSha256 sha256hex hexEncode p method
           path body timestamp =
         huaweiGenerateAuthorization hmacSha256 sha256hex hexEncode q method
           path body timestamp) := by
  refine ⟨?_, ?_, ?_⟩
  · intro hmacSha1 base64Encode p q method params hsec
    unfold aliyunGenerateSignature
    rw [hsec]
  · intro hmacSha256 sha256hex hexEncode formatDate p q params ts hid hsec
    unfold tencentGenerateAuthorization
    rw [hid, hsec]
  · intro hmacSha256 sha256hex hexEncode p q method path body ts hacc hsec
    unfold huaweiGenerateAuthorization
    rw [hacc, hsec]

/-- Witness for C8: provider states sharing credentials but differing in
endpoint and client state sign identically, for a concrete (dummy)
choice of the crypto primitives. -/
theorem c8_signature_determinism_witness :
    aliyunGenerateSignature (fun _ _ => []) (fun _ => "sig")
        ⟨"ak", "sk", "https://alidns.aliyuncs.com", 0⟩ "GET"
        [("Action", "DescribeDomainRecords")] =
      aliyunGenerateSignature (fun _ _ => []) (fun _ => "sig")
        ⟨"ak", "sk", "https://mirror.example", 7⟩ "GET"
        [("Action", "DescribeDomainRecords")] ∧
    tencentGenerateAuthorization (fun _ _ => []) (fun _ => "h") (fun _ => "x")
        (fun _ => "2026-10-11") ⟨"id", "key", "https://a", 0⟩
        [("Action", "ModifyRecord")] 17600 =
      tencentGenerateAuthorization (fun _ _ => []) (fun _ => "h") (fun _ => "x")
        (fun _ => "2026-10-11") ⟨"id", "key", "https://b", 3⟩
        [("Action", "ModifyRecord")] 17600 ∧
    huaweiGenerateAuthorization (fun _ _ => []) (fun _ => "h") (fun _ => "x")
        ⟨"ak", "sk", "https://a", 0⟩ "PUT" "/v2/zones" "" "20261011T000000Z" =
      huaweiGenerateAuthorization (fun _ _ => []) (fun _ => "h") (fun _ => "x")
        ⟨"ak", "sk", "https://b", 9⟩ "PUT" "/v2/zones" "" "20261011T000000Z" :=
  ⟨c8_signature_determinism.1 (fun _ _ => []) (fun _ => "sig")
      ⟨"ak", "sk", "https://alidns.aliyuncs.com", 0⟩
      ⟨"ak", "sk", "https://mirror.example", 7⟩ "GET"
      [("Action", "DescribeDomainRecords")] rfl,
   c8_signature_determinism.2.1 (fun _ _ => []) (fun _ => "h") (fun _ => "x")
      (fun _ => "2026-10-11") ⟨"id", "key", "https://a", 0⟩
      ⟨"id", "key", "https://b", 3⟩ [("Action", "ModifyRecord")] 17600 rfl rfl,
   c8_signature_determinism.2.2 (fun _ _ => []) (fun _ => "h") (fun _ => "x")
      ⟨"ak", "sk", "https://a", 0⟩ ⟨"ak", "sk", "https://b", 9⟩
      "PUT" "/v2/zones" "" "20261011T000000Z" rfl rfl⟩

/-! ### Claim C9: read-before-write record-id resolution

For each provider, `UpdateRecord` first resolves a record id from a
listing read; the listing result is modelled as the decoded response the
provider code inspects, and each provider's resolution logic is embedded
including its decision on zero matches: Aliyun catches
`ErrRecordNotFound` and calls `addRecord` (aliyun.go:129-138); Tencent
(part_002:71-75), Huawei (part_001:68-77) and Cloudflare
(cloudflare.go:72-81) return the error to the caller unchanged. -/

/-- Error taxonomy relevant to resolution. -/
inductive DnsErr where
  | recordNotFound : DnsErr
  | other : String → DnsErr
deriving DecidableEq, Repr

/-- What `UpdateRecord` decides to do after the resolution read. -/
inductive UpdateAction where
  | create : UpdateAction
  | updateById : String → UpdateAction
  | fail : DnsErr → UpdateAction
deriving DecidableEq, Repr

/-- The `RecordId` field of a decoded Aliyun record, which the code
accepts as a JSON string or number (aliyun.go:198-206). -/
inductive AliyunIdField where
  | idStr : String → AliyunIdField
  | idNum : Int → AliyunIdField
  | idOther : AliyunIdField
deriving DecidableEq, Repr

/-- A record of the Aliyun `DescribeDomainRecords` response, already
filtered server-side by `RRKeyWord` (a keyword, not exact, match on the
name) and `Type`. -/
structure AliyunApiRecord where
  rr : String
  rtype : String
  idField : AliyunIdField
deriving DecidableEq, Repr

/-- `AliyunProvider.getRecordId` (aliyun.go:164-209) after the HTTP
round trip: a missing `DomainRecords` object or an empty/absent `Record`
list is `ErrRecordNotFound`; otherwise the id of `records[0]` is taken
without any client-side name or type check. -/
def aliyunGetRecordId (resp : Option (List AliyunApiRecord)) :
    Except DnsErr String :=
  match resp with
  | none => .error .recordNotFound
  | some [] => .error .recordNotFound
  | some (r :: _) =>
    match r.idField with
    | .idStr s => .ok s
    | .idNum n => .ok (toString n)
    | .idOther => .error (.other "invalid RecordId format")

/-- `AliyunProvider.UpdateRecord` (aliyun.go:129-138): a
`RecordNotFoundError` from resolution is caught and turned into
`addRecord` (create); any other error is surfaced. -/
def aliyunUpdateAction (resp : Option (List AliyunApiRecord)) : UpdateAction :=
  match aliyunGetRecordId resp with
  | .error .recordNotFound => .create
  | .error e => .fail e
  | .ok id => .updateById id

/-- A record of the Tencent `DescribeRecordList` response, already
filtered server-side by exact `Subdomain` and `RecordType`. -/
structure TencentApiRecord where
  recordId : Nat
  name : String
  rtype : String
  value : String
deriving DecidableEq, Repr

/-- `TencentDNSProvider.getRecordId` (part_002:94-123): an empty record
list is `ErrRecordNotFound`; otherwise `RecordList[0]` is taken. -/
def tencentGetRecordId (recordList : List TencentApiRecord) :
    Except DnsErr Nat :=
  match recordList with
  | [] => .error .recordNotFound
  | r :: _ => .ok r.recordId

/-- `TencentDNSProvider.UpdateRecord` (part_002:71-92): any resolution
error, including `ErrRecordNotFound`, is returned to the caller; no
create path exists. -/
def tencentUpdateAction (recordList : List TencentApiRecord) : UpdateAction :=
  match tencentGetRecordId recordList with
  | .error e => .fail e
  | .ok id => .updateById (toString id)

/-- A recordset of the Huawei listing response (unfiltered: Huawei's
code lists the whole zone). -/
structure HuaweiApiRecordSet where
  id : String
  name : String
  rtype : String
deriving DecidableEq, Repr

/-- `HuaweiDNSProvider.getRecordsetId` (part_001:115-139): scan the
zone's recordsets for the first exact (name, type) match; none is
`ErrRecordNotFound`. -/
def huaweiGetRecordsetId (recordsets : List HuaweiApiRecordSet)
    (fullName rtype : String) : Except DnsErr String :=
  match recordsets with
  | [] => .error .recordNotFound
  | r :: rest =>
    if r.name = fullName ∧ r.rtype = rtype then .ok r.id
    else huaweiGetRecordsetId rest fullName rtype

/-- `HuaweiDNSProvider.UpdateRecord` (part_001:68-92): resolution errors,
including `ErrRecordNotFound`, are returned to the caller; no create
path exists. -/
def huaweiUpdateAction (recordsets : List HuaweiApiRecordSet)
    (fullName rtype : String) : UpdateAction :=
  match huaweiGetRecordsetId recordsets fullName rtype with
  | .error e => .fail e
  | .ok id => .updateById id

/-- A record of the Cloudflare listing response, already filtered
server-side by exact `name` and `type` query parameters; the decoded
`id` field may be absent. -/
structure CloudflareApiRecord where
  id : Option String
deriving DecidableEq, Repr

/-- `CloudflareDNSProvider.getRecordId` (cloudflare.go:134-168): a
missing or empty result list is `ErrRecordNotFound`; otherwise the id of
`records[0]`. -/
def cloudflareGetRecordId (result : Option (List CloudflareApiRecord)) :
    Except DnsErr String :=
  match result with
  | none => .error .recordNotFound
  | some [] => .error .recordNotFound
  | some (r :: _) =>
    match r.id with
    | some s => .ok s
    | none => .error (.other "record ID not found")

/-- `CloudflareDNSProvider.UpdateRecord` (cloudflare.go:72-98):
resolution errors, including `ErrRecordNotFound`, are returned to the
caller; no create path exists. -/
def cloudflareUpdateAction (result : Option (List CloudflareApiRecord)) :
    UpdateAction :=
  match cloudflareGetRecordId result with
  | .error e => .fail e
  | .ok id => .updateById id

/-- Counterexample to claim C9 as stated: Tencent's resolution of zero
matches surfaces `ErrRecordNotFound` to the caller instead of signalling
a create — so "every provider ... treats zero matches as a create
signal rather than an error surfaced to the caller" is false. -/
theorem c9_counterexample :
    tencentUpdateAction [] = .fail .recordNotFound ∧
    tencentUpdateAction [] ≠ .create := by
  constructor <;> decide

/-- Claim C9 (amended): every resolution read selects the first match
when duplicates exist, but the zero-match policy diverges per provider:
only Aliyun turns zero matches into a create; Tencent, Huawei and
Cloudflare surface `ErrRecordNotFound`.  Disambiguation is by exact
(name, type) only for Huawei's client-side scan (and via exact
server-side query filters for Tencent and Cloudflare); Aliyun queries by
keyword plus type and takes the first returned record without a
client-side exact-name check. -/
theorem c9_zero_match_and_first_match :
    (aliyunUpdateAction none = .create ∧
     aliyunUpdateAction (some []) = .create) ∧
    (tencentUpdateAction [] = .fail .recordNotFound ∧
     (∀ fullName rtype, huaweiUpdateAction [] fullName rtype =
        .fail .recordNotFound) ∧
     cloudflareUpdateAction none = .fail .recordNotFound ∧
     cloudflareUpdateAction (some []) = .fail .recordNotFound) ∧
    (∀ (r : AliyunApiRecord) (rest : List AliyunApiRecord) (s : String),
       r.idField = .idStr s →
       aliyunUpdateAction (some (r :: rest)) = .updateById s) ∧
    (∀ (r : TencentApiRecord) (rest : List TencentApiRecord),
       tencentUpdateAction (r :: rest) = .updateById (toString r.recordId)) ∧
    (∀ (r : HuaweiApiRecordSet) (rest : List HuaweiApiRecordSet)
       (fullName rtype : String),
       r.name = fullName → r.rtype = rtype →
       huaweiUpdateAction (r :: rest) fullName rtype = .updateById r.id) ∧
    (∀ (recordsets : List HuaweiApiRecordSet) (fullName rtype : String),
       (∀ r ∈ recordsets, ¬(r.name = fullName ∧ r.rtype = rtype)) →
       huaweiUpdateAction recordsets fullName rtype =
         .fail .recordNotFound) := by
  refine ⟨⟨rfl, rfl⟩, ⟨rfl, fun _ _ => rfl, rfl, rfl⟩, ?_, ?_, ?_, ?_⟩
  · intro r rest s hid
    simp [aliyunUpdateAction, aliyunGetRecordId, hid]
  · intro r rest
    rfl
  · intro r rest fullName rtype hn ht
    simp [huaweiUpdateAction, huaweiGetRecordsetId, hn, ht]
  · intro recordsets fullName rtype hall
    have hres : huaweiGetRecordsetId recordsets fullName rtype =
        .error .recordNotFound := by
      induction recordsets with
      | nil => rfl
      | cons r rest ih =>
        have hr := hall r (by simp)
        simp only [huaweiGetRecordsetId, if_neg hr]
        exact ih (fun x hx => hall x (by simp [hx]))
    simp [huaweiUpdateAction, hres]

/-- Witness for C9's amendment: duplicate exact matches for Huawei pick
the first, a string-id Aliyun head record is updated in place, and a
zone with only non-matching recordsets resolves to not-found. -/
theorem c9_zero_match_and_first_match_witness :
    huaweiUpdateAction [⟨"id1", "www.example.com.", "A"⟩,
        ⟨"id2", "www.example.com.", "A"⟩] "www.example.com." "A" =
      .updateById "id1" ∧
    aliyunUpdateAction (some [⟨"www", "A", .idStr "a1"⟩,
        ⟨"www2", "A", .idStr "a2"⟩]) = .updateById "a1" ∧
    huaweiUpdateAction [⟨"id3", "mail.example.com.", "A"⟩]
        "www.example.com." "A" = .fail .recordNotFound :=
  ⟨c9_zero_match_and_first_match.2.2.2.2.1 ⟨"id1", "www.example.com.", "A"⟩
      [⟨"id2", "www.example.com.", "A"⟩] "www.example.com." "A" rfl rfl,
   c9_zero_match_and_first_match.2.2.1 ⟨"www", "A", .idStr "a1"⟩
      [⟨"www2", "A", .idStr "a2"⟩] "a1" rfl,
   c9_zero_match_and_first_match.2.2.2.2.2 [⟨"id3", "mail.example.com.", "A"⟩]
      "www.example.com." "A"
      (by intro r hr; simp at hr; subst hr; simp)⟩

end IpUpdater
